import Mathlib

/-!
Shallow embedding of the `retry-mini` package (`retryMini` in `index.js`).

The JavaScript source is a single async function:

  const retryMini = async (task, options = {}) => {
      const maxRetries = options?.maxRetries ?? 3;
      const baseDelay = options?.baseDelay ?? 0;
      const backoffFactor = options?.backoffFactor ?? 1;
      const jitter = options?.jitter ?? 0;
      const shouldRetry = options?.shouldRetry ?? (() => true);
      const onRetry = options?.onRetry ?? (() => {});
      let lastError;
      for (let attemptNumber = 0; attemptNumber <= maxRetries; attemptNumber++) {
          try {
              return await task(attemptNumber);
          } catch (error) {
              lastError = error;
              const retryAllowed = await shouldRetry?.(error, attemptNumber) ?? true;
              if (!retryAllowed || attemptNumber === maxRetries) { break; }
              await onRetry?.(error, attemptNumber);
              let waitTime = baseDelay * Math.max(1, backoffFactor ** attemptNumber);
              if (waitTime > 0 && jitter > 0) {
                  const randomFactor = 1 + (Math.random() * 2 - 1) * jitter;
                  waitTime = Math.floor(waitTime * randomFactor);
              }
              if (waitTime > 0) {
                  await new Promise(resolve => setTimeout(resolve, waitTime));
              }
          }
      }
      throw lastError;
  };

Design of the embedding:
* JavaScript numbers are modelled by `ℚ` (all configurations exercised here
  are exact in both semantics), `Math.floor` by `Int.floor`.
* A task is `ℕ → Except ε α`: attempt number to failure or value.  The
  sync/async distinction is irrelevant to the sequential semantics.
* `shouldRetry` returns an arbitrary JavaScript value (modelled by
  `JSValue`) or throws; `onRetry` returns unit or throws; the `?? true`
  and `!retryAllowed` steps use JavaScript nullishness and truthiness.
* `Math.random()` is an injectable source `rng : ℕ → ℚ`, indexed by the
  attempt number (the source is sampled at most once per attempt).
* A run produces a trace of observable events (task calls, hook calls,
  scheduled sleeps) together with an outcome.  `Outcome.thrown e` is the
  final `throw lastError` (with `none` for the never-assigned `undefined`),
  `Outcome.hookThrow e` is an exception escaping from `shouldRetry` or
  `onRetry` (the `catch` block is not itself inside a `try`).
* The `for` loop is driven by fuel together with the loop guard
  `attemptNumber <= maxRetries`; `retryMini` supplies fuel
  `(maxRetries + 1).toNat`, which is exactly the number of iterations the
  JavaScript loop can perform, and both the fuel-exhaustion exit and the
  guard-failure exit perform the trailing `throw lastError`.
-/

namespace RetryMini

/-- A JavaScript value as far as `retry-mini` inspects one: the library only
ever asks whether a value is nullish (for `??`) or truthy (for `!`). -/
inductive JSValue where
  | undefined : JSValue
  | null : JSValue
  | bool : Bool → JSValue
  | num : ℚ → JSValue
  | str : String → JSValue
deriving DecidableEq

/-- JavaScript nullishness: `undefined` and `null` only. -/
def JSValue.isNullish : JSValue → Bool
  | .undefined => true
  | .null => true
  | _ => false

/-- JavaScript truthiness on the modelled values. -/
def JSValue.truthy : JSValue → Bool
  | .undefined => false
  | .null => false
  | .bool b => b
  | .num q => decide (q ≠ 0)
  | .str s => decide (s ≠ "")

/-- Observable events of one orchestration run. -/
inductive REvent where
  | taskCall : ℕ → REvent
  | shouldRetryCall : ℕ → REvent
  | onRetryCall : ℕ → REvent
  | sleep : ℚ → REvent
deriving DecidableEq

/-- Outcome of one orchestration run.  `thrown e` is the trailing
`throw lastError` (`none` models the uninitialised `undefined`);
`hookThrow e` is an exception escaping from `shouldRetry`/`onRetry`. -/
inductive Outcome (ε α : Type) where
  | ok : α → Outcome ε α
  | thrown : Option ε → Outcome ε α
  | hookThrow : ε → Outcome ε α
deriving DecidableEq

/-- The caller-supplied options object: every recognised option may be
absent (or `null`/`undefined`), mirroring `options?.field ?? default`. -/
structure RetryOptions (ε : Type) where
  maxRetries : Option ℤ := none
  baseDelay : Option ℚ := none
  backoffFactor : Option ℚ := none
  jitter : Option ℚ := none
  shouldRetry : Option (ε → ℕ → Except ε JSValue) := none
  onRetry : Option (ε → ℕ → Except ε Unit) := none

/-- The per-run configuration snapshot after defaulting. -/
structure RConfig (ε : Type) where
  maxRetries : ℤ
  baseDelay : ℚ
  backoffFactor : ℚ
  jitter : ℚ
  shouldRetry : ε → ℕ → Except ε JSValue
  onRetry : ε → ℕ → Except ε Unit

/-- The six `options?.x ?? default` lines at the top of `retryMini`. -/
def resolveOptions {ε : Type} (o : RetryOptions ε) : RConfig ε where
  maxRetries := o.maxRetries.getD 3
  baseDelay := o.baseDelay.getD 0
  backoffFactor := o.backoffFactor.getD 1
  jitter := o.jitter.getD 0
  shouldRetry := o.shouldRetry.getD (fun _ _ => .ok (.bool true))
  onRetry := o.onRetry.getD (fun _ _ => .ok ())

/-- `baseDelay * Math.max(1, backoffFactor ** attemptNumber)`. -/
def rawWait {ε : Type} (cfg : RConfig ε) (k : ℕ) : ℚ :=
  cfg.baseDelay * max 1 (cfg.backoffFactor ^ k)

/-- The wait time of attempt `k` after the jitter branch:
`if (waitTime > 0 && jitter > 0)` replaces it by
`Math.floor(waitTime * (1 + (Math.random() * 2 - 1) * jitter))`. -/
def waitTime {ε : Type} (cfg : RConfig ε) (rng : ℕ → ℚ) (k : ℕ) : ℚ :=
  let rw := rawWait cfg k
  if 0 < rw ∧ 0 < cfg.jitter then
    ((⌊rw * (1 + (rng k * 2 - 1) * cfg.jitter)⌋ : ℤ) : ℚ)
  else rw

/-- The `for` loop of `retryMini`, one constructor case per exit.  `fuel`
bounds the remaining iterations; together with the guard
`(k : ℤ) ≤ cfg.maxRetries` it reproduces
`for (let attemptNumber = 0; attemptNumber <= maxRetries; attemptNumber++)`
when started with fuel `(maxRetries + 1).toNat`.  Both exits perform the
trailing `throw lastError`. -/
def retryLoop {ε α : Type} (cfg : RConfig ε) (task : ℕ → Except ε α)
    (rng : ℕ → ℚ) : ℕ → Option ε → ℕ → List REvent × Outcome ε α
  | _, lastError, 0 => ([], .thrown lastError)
  | k, lastError, fuel + 1 =>
    if (k : ℤ) ≤ cfg.maxRetries then
      match task k with
      | .ok a => ([.taskCall k], .ok a)
      | .error e =>
        match cfg.shouldRetry e k with
        | .error h => ([.taskCall k, .shouldRetryCall k], .hookThrow h)
        | .ok v =>
          let retryAllowed := if v.isNullish then JSValue.bool true else v
          if retryAllowed.truthy = false ∨ (k : ℤ) = cfg.maxRetries then
            ([.taskCall k, .shouldRetryCall k], .thrown (some e))
          else
            match cfg.onRetry e k with
            | .error h => ([.taskCall k, .shouldRetryCall k, .onRetryCall k], .hookThrow h)
            | .ok _ =>
              let w := waitTime cfg rng k
              let here := [REvent.taskCall k, .shouldRetryCall k, .onRetryCall k]
                ++ (if 0 < w then [REvent.sleep w] else [])
              let rest := retryLoop cfg task rng (k + 1) (some e) fuel
              (here ++ rest.1, rest.2)
    else ([], .thrown lastError)

/-- Exact iteration budget of the JavaScript loop. -/
def loopFuel (maxRetries : ℤ) : ℕ := (maxRetries + 1).toNat

/-- The whole `retryMini` call: resolve options, run the loop from
attempt 0 with `lastError` uninitialised. -/
def retryMini {ε α : Type} (task : ℕ → Except ε α) (options : RetryOptions ε)
    (rng : ℕ → ℚ) : List REvent × Outcome ε α :=
  let cfg := resolveOptions options
  retryLoop cfg task rng 0 none (loopFuel cfg.maxRetries)

/-- Extract the attempt number of a task invocation event. -/
def evTask : REvent → Option ℕ
  | .taskCall k => some k
  | _ => none

/-- Extract the attempt number of an `onRetry` invocation event. -/
def evOnRetry : REvent → Option ℕ
  | .onRetryCall k => some k
  | _ => none

/-- Extract the duration of a scheduled sleep event. -/
def evSleep : REvent → Option ℚ
  | .sleep t => some t
  | _ => none

/-- Attempt numbers passed to the task, in order. -/
def taskCalls (tr : List REvent) : List ℕ := tr.filterMap evTask

/-- Attempt numbers passed to `onRetry`, in order. -/
def onRetryCalls (tr : List REvent) : List ℕ := tr.filterMap evOnRetry

/-- Durations of the scheduled sleeps, in order. -/
def sleeps (tr : List REvent) : List ℚ := tr.filterMap evSleep

/-- The events of one full (continued) iteration of the loop at attempt `j`. -/
def iterTrace {ε : Type} (cfg : RConfig ε) (rng : ℕ → ℚ) (j : ℕ) : List REvent :=
  [REvent.taskCall j, .shouldRetryCall j, .onRetryCall j]
    ++ (if 0 < waitTime cfg rng j then [REvent.sleep (waitTime cfg rng j)] else [])

/-- Events accumulated by the loop on the way to attempt `k`, when every
attempt before `k` fails and is retried. -/
def reachTrace {ε : Type} (cfg : RConfig ε) (rng : ℕ → ℚ) : ℕ → List REvent
  | 0 => []
  | k + 1 => reachTrace cfg rng k ++ iterTrace cfg rng k

/-- The value of `lastError` on entry to attempt `k` when every earlier
attempt failed, attempt `j` with error `err j`. -/
def lastAt {ε : Type} (err : ℕ → ε) : ℕ → Option ε
  | 0 => none
  | j + 1 => some (err j)

/-- A task that fails on every attempt, always with error `7`. -/
def failTask7 : ℕ → Except ℕ ℕ := fun _ => .error 7

/-- The random source pinned at the minimum of `[0, 1)`. -/
def rng0 : ℕ → ℚ := fun _ => 0

/-- `maxRetries 3, baseDelay 100, backoffFactor 2, jitter 0`. -/
def opts100 : RetryOptions ℕ :=
  { maxRetries := some 3, baseDelay := some 100, backoffFactor := some 2,
    jitter := some 0 }

/-- As `opts100` but with `backoffFactor 1`. -/
def optsFact1 : RetryOptions ℕ :=
  { maxRetries := some 3, baseDelay := some 100, backoffFactor := some 1,
    jitter := some 0 }

/-- As `opts100` but with the sub-1 `backoffFactor` `-2`. -/
def optsNeg2 : RetryOptions ℕ :=
  { maxRetries := some 3, baseDelay := some 100, backoffFactor := some (-2),
    jitter := some 0 }

/-- The degenerate configuration `baseDelay 100, jitter 2`. -/
def optsJ2 : RetryOptions ℕ := { baseDelay := some 100, jitter := some 2 }

/-- `maxRetries 1` with a `shouldRetry` that returns the number `0`:
falsy in JavaScript yet not the value `false`. -/
def optsNum0 : RetryOptions ℕ :=
  { maxRetries := some 1, shouldRetry := some (fun _ _ => .ok (.num 0)) }

/-- `maxRetries 1` with a `shouldRetry` that returns `null` (nullish, so
defaulted to `true` by `?? true`). -/
def optsNullCont : RetryOptions ℕ :=
  { maxRetries := some 1, shouldRetry := some (fun _ _ => .ok JSValue.null) }

/-- A `shouldRetry` policy that continues on attempt 0 and vetoes afterwards. -/
def vetoAfter0 : ℕ → ℕ → Except ℕ JSValue :=
  fun _ j => if j = 0 then .ok (.bool true) else .ok (.bool false)

/-- `maxRetries 2` with the `vetoAfter0` policy. -/
def optsVeto : RetryOptions ℕ := { maxRetries := some 2, shouldRetry := some vetoAfter0 }

/-- A `shouldRetry` hook that itself always throws `9`. -/
def optsThrow9 : RetryOptions ℕ := { shouldRetry := some (fun _ _ => .error 9) }

/-- `maxRetries 0` with everything else defaulted. -/
def optsM0 : RetryOptions ℕ := { maxRetries := some 0 }

/-- `baseDelay 100` with `backoffFactor -1` (inside `[-1, 1]`). -/
def optsNegOne : RetryOptions ℕ :=
  { baseDelay := some 100, backoffFactor := some (-1) }

theorem taskCalls_append (l₁ l₂ : List REvent) :
    taskCalls (l₁ ++ l₂) = taskCalls l₁ ++ taskCalls l₂ :=
  List.filterMap_append l₁ l₂ evTask

theorem onRetryCalls_append (l₁ l₂ : List REvent) :
    onRetryCalls (l₁ ++ l₂) = onRetryCalls l₁ ++ onRetryCalls l₂ :=
  List.filterMap_append l₁ l₂ evOnRetry

theorem sleeps_append (l₁ l₂ : List REvent) :
    sleeps (l₁ ++ l₂) = sleeps l₁ ++ sleeps l₂ :=
  List.filterMap_append l₁ l₂ evSleep

theorem taskCalls_iterTrace {ε : Type} (cfg : RConfig ε) (rng : ℕ → ℚ) (j : ℕ) :
    taskCalls (iterTrace cfg rng j) = [j] := by
  by_cases h : 0 < waitTime cfg rng j <;>
    simp [iterTrace, taskCalls, evTask, h, List.filterMap_cons]

theorem onRetryCalls_iterTrace {ε : Type} (cfg : RConfig ε) (rng : ℕ → ℚ) (j : ℕ) :
    onRetryCalls (iterTrace cfg rng j) = [j] := by
  by_cases h : 0 < waitTime cfg rng j <;>
    simp [iterTrace, onRetryCalls, evOnRetry, h, List.filterMap_cons]

theorem taskCalls_reachTrace {ε : Type} (cfg : RConfig ε) (rng : ℕ → ℚ) (k : ℕ) :
    taskCalls (reachTrace cfg rng k) = List.range k := by
  induction k with
  | zero => simp [reachTrace, taskCalls]
  | succ k ih =>
    rw [reachTrace, taskCalls_append, ih, taskCalls_iterTrace, List.range_succ]

theorem onRetryCalls_reachTrace {ε : Type} (cfg : RConfig ε) (rng : ℕ → ℚ) (k : ℕ) :
    onRetryCalls (reachTrace cfg rng k) = List.range k := by
  induction k with
  | zero => simp [reachTrace, onRetryCalls]
  | succ k ih =>
    rw [reachTrace, onRetryCalls_append, ih, onRetryCalls_iterTrace, List.range_succ]

/-- A successful attempt resolves at once with the task's value. -/
theorem retryLoop_success_step {ε α : Type} (cfg : RConfig ε) (task : ℕ → Except ε α)
    (rng : ℕ → ℚ) (k : ℕ) (lastE : Option ε) (fuel : ℕ) (a : α)
    (hk : (k : ℤ) ≤ cfg.maxRetries) (htask : task k = .ok a) :
    retryLoop cfg task rng k lastE (fuel + 1) = ([.taskCall k], .ok a) := by
  simp [retryLoop, if_pos hk, htask]

/-- A failed attempt on which `shouldRetry` itself throws ends the run at
once with the hook's error. -/
theorem retryLoop_shouldRetry_throw_step {ε α : Type} (cfg : RConfig ε)
    (task : ℕ → Except ε α) (rng : ℕ → ℚ) (k : ℕ) (lastE : Option ε) (fuel : ℕ)
    (e h : ε) (hk : (k : ℤ) ≤ cfg.maxRetries) (htask : task k = .error e)
    (hs : cfg.shouldRetry e k = .error h) :
    retryLoop cfg task rng k lastE (fuel + 1)
      = ([.taskCall k, .shouldRetryCall k], .hookThrow h) := by
  simp [retryLoop, if_pos hk, htask, hs]

/-- A failed attempt on which `shouldRetry` returns a non-nullish falsy
value, or which is the final attempt, breaks out of the loop and throws
the just-caught error. -/
theorem retryLoop_break_step {ε α : Type} (cfg : RConfig ε) (task : ℕ → Except ε α)
    (rng : ℕ → ℚ) (k : ℕ) (lastE : Option ε) (fuel : ℕ) (e : ε) (v : JSValue)
    (hk : (k : ℤ) ≤ cfg.maxRetries) (htask : task k = .error e)
    (hs : cfg.shouldRetry e k = .ok v)
    (hstop : (v.isNullish = false ∧ v.truthy = false) ∨ (k : ℤ) = cfg.maxRetries) :
    retryLoop cfg task rng k lastE (fuel + 1)
      = ([.taskCall k, .shouldRetryCall k], .thrown (some e)) := by
  have hcond : (if v.isNullish then JSValue.bool true else v).truthy = false
      ∨ (k : ℤ) = cfg.maxRetries := by
    rcases hstop with ⟨hn, ht⟩ | hm
    · left; rw [hn]; simpa using ht
    · exact Or.inr hm
  simp [retryLoop, if_pos hk, htask, hs, hcond]

/-- A failed, retried attempt on which `onRetry` itself throws ends the run
at once with the hook's error. -/
theorem retryLoop_onRetry_throw_step {ε α : Type} (cfg : RConfig ε)
    (task : ℕ → Except ε α) (rng : ℕ → ℚ) (k : ℕ) (lastE : Option ε) (fuel : ℕ)
    (e h : ε) (v : JSValue) (hk : (k : ℤ) ≤ cfg.maxRetries)
    (htask : task k = .error e) (hs : cfg.shouldRetry e k = .ok v)
    (hcont : v.isNullish = true ∨ v.truthy = true)
    (hkm : (k : ℤ) ≠ cfg.maxRetries) (ho : cfg.onRetry e k = .error h) :
    retryLoop cfg task rng k lastE (fuel + 1)
      = ([.taskCall k, .shouldRetryCall k, .onRetryCall k], .hookThrow h) := by
  have hcond : ¬ ((if v.isNullish then JSValue.bool true else v).truthy = false
      ∨ (k : ℤ) = cfg.maxRetries) := by
    rcases hcont with hn | ht
    · rw [hn]; simp [JSValue.truthy, hkm]
    · cases hb : v.isNullish
      · simp [hb, ht, hkm]
      · simp [hb, JSValue.truthy, hkm]
  simp [retryLoop, if_pos hk, htask, hs, hcond, ho]

/-- A failed attempt that is allowed to continue: the loop performs the
`onRetry` call, the (possibly empty) sleep, and recurses on the next
attempt with `lastError` set to the just-caught error. -/
theorem retryLoop_continue_step {ε α : Type} (cfg : RConfig ε) (task : ℕ → Except ε α)
    (rng : ℕ → ℚ) (k : ℕ) (lastE : Option ε) (fuel : ℕ) (e : ε) (v : JSValue)
    (hk : (k : ℤ) ≤ cfg.maxRetries) (htask : task k = .error e)
    (hs : cfg.shouldRetry e k = .ok v)
    (hcont : v.isNullish = true ∨ v.truthy = true)
    (hkm : (k : ℤ) ≠ cfg.maxRetries) (ho : cfg.onRetry e k = .ok ()) :
    retryLoop cfg task rng k lastE (fuel + 1)
      = (iterTrace cfg rng k ++ (retryLoop cfg task rng (k + 1) (some e) fuel).1,
         (retryLoop cfg task rng (k + 1) (some e) fuel).2) := by
  have hcond : ¬ ((if v.isNullish then JSValue.bool true else v).truthy = false
      ∨ (k : ℤ) = cfg.maxRetries) := by
    rcases hcont with hn | ht
    · rw [hn]; simp [JSValue.truthy, hkm]
    · cases hb : v.isNullish
      · simp [hb, ht, hkm]
      · simp [hb, JSValue.truthy, hkm]
  simp [retryLoop, if_pos hk, htask, hs, hcond, ho, iterTrace]

/-- As long as the guard holds and fuel remains, every iteration begins by
invoking the task. -/
theorem retryLoop_head {ε α : Type} (cfg : RConfig ε) (task : ℕ → Except ε α)
    (rng : ℕ → ℚ) (k : ℕ) (lastE : Option ε) (fuel : ℕ)
    (hk : (k : ℤ) ≤ cfg.maxRetries) :
    ∃ rest, (retryLoop cfg task rng k lastE (fuel + 1)).1 = REvent.taskCall k :: rest := by
  cases htask : task k with
  | ok a =>
    exact ⟨[], by rw [retryLoop_success_step cfg task rng k lastE fuel a hk htask]⟩
  | error e =>
    cases hs : cfg.shouldRetry e k with
    | error h =>
      exact ⟨[.shouldRetryCall k],
        by rw [retryLoop_shouldRetry_throw_step cfg task rng k lastE fuel e h hk htask hs]⟩
    | ok v =>
      simp only [retryLoop, if_pos hk, htask, hs]
      by_cases hc : (if v.isNullish then JSValue.bool true else v).truthy = false
          ∨ (k : ℤ) = cfg.maxRetries
      · exact ⟨[.shouldRetryCall k], by simp [hc]⟩
      · rw [if_neg hc]
        cases ho : cfg.onRetry e k with
        | error h => exact ⟨[.shouldRetryCall k, .onRetryCall k], by simp⟩
        | ok u =>
          exact ⟨REvent.shouldRetryCall k :: REvent.onRetryCall k
            :: ((if 0 < waitTime cfg rng k then [REvent.sleep (waitTime cfg rng k)] else [])
              ++ (retryLoop cfg task rng (k + 1) (some e) fuel).1), by simp⟩

/-- When every attempt fails and the policy always continues, the loop
invokes the task at consecutive attempt numbers until the fuel (and with
it the attempt budget) is spent. -/
theorem retryLoop_always_fail_calls {ε α : Type} (cfg : RConfig ε)
    (task : ℕ → Except ε α) (rng : ℕ → ℚ) (err : ℕ → ε)
    (hfail : ∀ k, task k = .error (err k))
    (hshould : ∀ e k, cfg.shouldRetry e k = .ok (.bool true))
    (hon : ∀ e k, cfg.onRetry e k = .ok ()) :
    ∀ (fuel k : ℕ) (lastE : Option ε), (k : ℤ) + fuel = cfg.maxRetries + 1 →
      taskCalls (retryLoop cfg task rng k lastE fuel).1 = List.range' k fuel := by
  intro fuel
  induction fuel with
  | zero => intro k lastE _; simp [retryLoop, taskCalls, List.range']
  | succ fuel ih =>
    intro k lastE hsum
    have hk : (k : ℤ) ≤ cfg.maxRetries := by push_cast at hsum; omega
    by_cases hkm : (k : ℤ) = cfg.maxRetries
    · have hf0 : fuel = 0 := by push_cast at hsum; omega
      subst hf0
      rw [retryLoop_break_step cfg task rng k lastE 0 (err k) (.bool true) hk
        (hfail k) (hshould (err k) k) (Or.inr hkm)]
      simp [taskCalls, evTask, List.filterMap_cons, List.range'_succ, List.range']
    · rw [retryLoop_continue_step cfg task rng k lastE fuel (err k) (.bool true) hk
        (hfail k) (hshould (err k) k) (Or.inr rfl) hkm (hon (err k) k)]
      have hsum' : ((k + 1 : ℕ) : ℤ) + fuel = cfg.maxRetries + 1 := by
        push_cast at hsum ⊢; omega
      simp only [taskCalls_append, taskCalls_iterTrace,
        ih (k + 1) (some (err k)) hsum', List.range'_succ k fuel 1]
      rfl

/-- Decomposition of a run that reaches attempt `k`: if every attempt
before `k` fails and is allowed to continue, the run is the accumulated
retry trace followed by the loop restarted at attempt `k` with the
remaining fuel and the last caught error. -/
theorem retryLoop_reach {ε α : Type} (cfg : RConfig ε) (task : ℕ → Except ε α)
    (rng : ℕ → ℚ) (err : ℕ → ε) (k : ℕ)
    (hB : ∀ j, j < k → task j = .error (err j)
      ∧ cfg.shouldRetry (err j) j = .ok (.bool true)
      ∧ cfg.onRetry (err j) j = .ok ())
    (hk : (k : ℤ) ≤ cfg.maxRetries) :
    retryLoop cfg task rng 0 none (loopFuel cfg.maxRetries)
      = (reachTrace cfg rng k
          ++ (retryLoop cfg task rng k (lastAt err k) (loopFuel cfg.maxRetries - k)).1,
         (retryLoop cfg task rng k (lastAt err k) (loopFuel cfg.maxRetries - k)).2) := by
  induction k with
  | zero => simp [reachTrace, lastAt]
  | succ k ih =>
    have hk' : (k : ℤ) ≤ cfg.maxRetries := by push_cast at hk ⊢; omega
    have hkm : (k : ℤ) ≠ cfg.maxRetries := by push_cast at hk ⊢; omega
    have hfuel : loopFuel cfg.maxRetries - k = (loopFuel cfg.maxRetries - (k + 1)) + 1 := by
      unfold loopFuel; push_cast at hk; omega
    obtain ⟨hT, hS, hO⟩ := hB k (Nat.lt_succ_self k)
    rw [ih (fun j hj => hB j (Nat.lt_succ_of_lt hj)) hk', hfuel,
      retryLoop_continue_step cfg task rng k (lastAt err k)
        (loopFuel cfg.maxRetries - (k + 1)) (err k) (.bool true) hk' hT hS
        (Or.inr rfl) hkm hO]
    simp [reachTrace, lastAt, List.append_assoc]

/-- If the loop ends in the trailing `throw lastError`, the thrown value is
either the inherited `lastError` (and no task call happened), or exactly
the error of the most recent task invocation. -/
theorem retryLoop_thrown_last {ε α : Type} (cfg : RConfig ε) (task : ℕ → Except ε α)
    (rng : ℕ → ℚ) :
    ∀ (fuel k : ℕ) (lastE e : Option ε),
      (retryLoop cfg task rng k lastE fuel).2 = .thrown e →
      (taskCalls (retryLoop cfg task rng k lastE fuel).1 = [] ∧ e = lastE) ∨
      ∃ j e', (taskCalls (retryLoop cfg task rng k lastE fuel).1).getLast? = some j
        ∧ task j = .error e' ∧ e = some e' := by
  intro fuel
  induction fuel with
  | zero =>
    intro k lastE e h
    simp only [retryLoop, Outcome.thrown.injEq] at h
    exact Or.inl ⟨by simp [retryLoop, taskCalls], h.symm⟩
  | succ fuel ih =>
    intro k lastE e hout
    by_cases hk : (k : ℤ) ≤ cfg.maxRetries
    · cases htask : task k with
      | ok a =>
        rw [retryLoop_success_step cfg task rng k lastE fuel a hk htask] at hout
        exact absurd hout (by simp)
      | error ek =>
        cases hs : cfg.shouldRetry ek k with
        | error h =>
          rw [retryLoop_shouldRetry_throw_step cfg task rng k lastE fuel ek h hk
            htask hs] at hout
          exact absurd hout (by simp)
        | ok v =>
          by_cases hc : (if v.isNullish then JSValue.bool true else v).truthy = false
              ∨ (k : ℤ) = cfg.maxRetries
          · have hstep : retryLoop cfg task rng k lastE (fuel + 1)
                = ([.taskCall k, .shouldRetryCall k], .thrown (some ek)) := by
              simp [retryLoop, if_pos hk, htask, hs, hc]
            rw [hstep] at hout ⊢
            refine Or.inr ⟨k, ek, ?_, htask, ?_⟩
            · simp [taskCalls, evTask, List.filterMap_cons]
            · simpa using hout.symm
          · cases ho : cfg.onRetry ek k with
            | error h =>
              have hstep : retryLoop cfg task rng k lastE (fuel + 1)
                  = ([.taskCall k, .shouldRetryCall k, .onRetryCall k], .hookThrow h) := by
                simp [retryLoop, if_pos hk, htask, hs, hc, ho]
              rw [hstep] at hout
              exact absurd hout (by simp)
            | ok u =>
              have hstep : retryLoop cfg task rng k lastE (fuel + 1)
                  = (iterTrace cfg rng k ++ (retryLoop cfg task rng (k + 1) (some ek) fuel).1,
                     (retryLoop cfg task rng (k + 1) (some ek) fuel).2) := by
                simp [retryLoop, if_pos hk, htask, hs, hc, ho, iterTrace]
              rw [hstep] at hout ⊢
              rcases ih (k + 1) (some ek) e hout with ⟨hnil, he⟩ | ⟨j, e', hlast, herr, he⟩
              · refine Or.inr ⟨k, ek, ?_, htask, by simpa using he⟩
                simp [taskCalls_append, taskCalls_iterTrace, hnil]
              · refine Or.inr ⟨j, e', ?_, herr, he⟩
                have hne : taskCalls (retryLoop cfg task rng (k + 1) (some ek) fuel).1 ≠ [] := by
                  intro hh
                  rw [hh] at hlast
                  exact absurd hlast (by simp)
                dsimp only
                rw [taskCalls_append, List.getLast?_append_of_ne_nil _ hne]
                exact hlast
    · simp only [retryLoop, if_neg hk, Outcome.thrown.injEq] at hout
      exact Or.inl ⟨by simp [retryLoop, if_neg hk, taskCalls], hout.symm⟩

/-- Every sleep event actually recorded by the loop has a strictly positive
duration: the `if (waitTime > 0)` check clamps non-positive waits to no
pause at all. -/
theorem retryLoop_sleep_pos {ε α : Type} (cfg : RConfig ε) (task : ℕ → Except ε α)
    (rng : ℕ → ℚ) :
    ∀ (fuel k : ℕ) (lastE : Option ε) (t : ℚ),
      REvent.sleep t ∈ (retryLoop cfg task rng k lastE fuel).1 → 0 < t := by
  intro fuel
  induction fuel with
  | zero => intro k lastE t h; simp [retryLoop] at h
  | succ fuel ih =>
    intro k lastE t h
    by_cases hk : (k : ℤ) ≤ cfg.maxRetries
    · cases htask : task k with
      | ok a =>
        rw [retryLoop_success_step cfg task rng k lastE fuel a hk htask] at h
        simp at h
      | error ek =>
        cases hs : cfg.shouldRetry ek k with
        | error hh =>
          rw [retryLoop_shouldRetry_throw_step cfg task rng k lastE fuel ek hh hk
            htask hs] at h
          simp at h
        | ok v =>
          by_cases hc : (if v.isNullish then JSValue.bool true else v).truthy = false
              ∨ (k : ℤ) = cfg.maxRetries
          · have hstep : retryLoop cfg task rng k lastE (fuel + 1)
                = ([.taskCall k, .shouldRetryCall k], .thrown (some ek)) := by
              simp [retryLoop, if_pos hk, htask, hs, hc]
            rw [hstep] at h
            simp at h
          · cases ho : cfg.onRetry ek k with
            | error hh =>
              have hstep : retryLoop cfg task rng k lastE (fuel + 1)
                  = ([.taskCall k, .shouldRetryCall k, .onRetryCall k], .hookThrow hh) := by
                simp [retryLoop, if_pos hk, htask, hs, hc, ho]
              rw [hstep] at h
              simp at h
            | ok u =>
              have hstep : retryLoop cfg task rng k lastE (fuel + 1)
                  = (iterTrace cfg rng k ++ (retryLoop cfg task rng (k + 1) (some ek) fuel).1,
                     (retryLoop cfg task rng (k + 1) (some ek) fuel).2) := by
                simp [retryLoop, if_pos hk, htask, hs, hc, ho, iterTrace]
              rw [hstep] at h
              rcases List.mem_append.1 h with h1 | h2
              · by_cases hw : 0 < waitTime cfg rng k
                · simp [iterTrace, hw] at h1
                  rw [h1]
                  exact hw
                · simp [iterTrace, hw] at h1
              · exact ih (k + 1) (some ek) t h2
    · simp [retryLoop, if_neg hk] at h

/-- C1: for a task that fails on every invocation, with `shouldRetry`
always returning `true` (and a non-throwing `onRetry`), `retryMini`
invokes the task exactly `maxRetries + 1` times, with attempt numbers
`0, 1, ..., maxRetries` in order, for every non-negative `maxRetries`. -/
theorem execute_always_fail_attempt_sequence {ε α : Type} (opts : RetryOptions ε)
    (task : ℕ → Except ε α) (rng : ℕ → ℚ) (err : ℕ → ε) (n : ℕ)
    (hmax : (resolveOptions opts).maxRetries = (n : ℤ))
    (hfail : ∀ k, task k = .error (err k))
    (hshould : ∀ e k, (resolveOptions opts).shouldRetry e k = .ok (.bool true))
    (hon : ∀ e k, (resolveOptions opts).onRetry e k = .ok ()) :
    taskCalls (retryMini task opts rng).1 = List.range (n + 1) := by
  have hfuel : loopFuel (resolveOptions opts).maxRetries = n + 1 := by
    unfold loopFuel; rw [hmax]; omega
  simp only [retryMini, hfuel]
  rw [retryLoop_always_fail_calls (resolveOptions opts) task rng err hfail hshould hon
    (n + 1) 0 none (by rw [hmax]; push_cast; ring)]
  exact (List.range_eq_range' (n + 1)).symm

theorem execute_always_fail_attempt_sequence_spot :
    taskCalls (retryMini failTask7 ({ maxRetries := some 1 } : RetryOptions ℕ) rng0).1
      = List.range 2 :=
  execute_always_fail_attempt_sequence _ failTask7 rng0 (fun _ => 7) 1 rfl
    (fun _ => rfl) (fun _ _ => rfl) (fun _ _ => rfl)

/-- C2: a task that succeeds on attempt 0 makes `retryMini` resolve with
exactly that value after exactly one task invocation, with no hook call
and no sleep, whatever the rest of the configuration (with its documented
non-negative `maxRetries`). -/
theorem execute_success_short_circuit {ε α : Type} (opts : RetryOptions ε)
    (task : ℕ → Except ε α) (rng : ℕ → ℚ) (a : α)
    (hm : 0 ≤ (resolveOptions opts).maxRetries)
    (h0 : task 0 = .ok a) :
    retryMini task opts rng = ([REvent.taskCall 0], Outcome.ok a) := by
  have hfuel : loopFuel (resolveOptions opts).maxRetries
      = (resolveOptions opts).maxRetries.toNat + 1 := by
    unfold loopFuel; omega
  simp only [retryMini, hfuel]
  exact retryLoop_success_step (resolveOptions opts) task rng 0 none
    (resolveOptions opts).maxRetries.toNat a (by exact_mod_cast hm) h0

theorem execute_success_short_circuit_spot :
    retryMini (fun _ => Except.ok 42) ({} : RetryOptions ℕ) rng0
      = ([REvent.taskCall 0], Outcome.ok 42) :=
  execute_success_short_circuit {} (fun _ => Except.ok (42 : ℕ)) rng0 42
    (by decide) rfl

/-- C10: for a negative `maxRetries` the loop body never runs: no task
invocation, no hook call, no sleep, and the final `throw lastError`
re-throws the never-assigned `undefined` (modelled `none`). -/
theorem execute_negative_maxRetries {ε α : Type} (opts : RetryOptions ε)
    (task : ℕ → Except ε α) (rng : ℕ → ℚ)
    (h : (resolveOptions opts).maxRetries < 0) :
    retryMini task opts rng = ([], Outcome.thrown (none : Option ε)) := by
  have hfuel : loopFuel (resolveOptions opts).maxRetries = 0 := by
    unfold loopFuel; omega
  simp only [retryMini, hfuel, retryLoop]

theorem execute_negative_maxRetries_spot :
    retryMini failTask7 ({ maxRetries := some (-1) } : RetryOptions ℕ) rng0
      = ([], Outcome.thrown none) :=
  execute_negative_maxRetries _ failTask7 rng0 (by decide)

/-- C3: if the run reaches attempt `k`, the task fails there, and
`shouldRetry` returns `false` for attempt `k` or `k` is the final attempt,
the loop stops: the task was invoked exactly `k + 1` times, nothing —
in particular no sleep — follows attempt `k`'s `shouldRetry` call,
`onRetry` is never called for attempt `k`, and the run throws the error
just caught as `lastError`. -/
theorem execute_stop_on_veto_or_final {ε α : Type} (opts : RetryOptions ε)
    (task : ℕ → Except ε α) (rng : ℕ → ℚ) (err : ℕ → ε) (k : ℕ) (ek : ε) (v : JSValue)
    (hk : (k : ℤ) ≤ (resolveOptions opts).maxRetries)
    (hB : ∀ j, j < k → task j = .error (err j)
      ∧ (resolveOptions opts).shouldRetry (err j) j = .ok (.bool true)
      ∧ (resolveOptions opts).onRetry (err j) j = .ok ())
    (hfk : task k = .error ek)
    (hv : (resolveOptions opts).shouldRetry ek k = .ok v)
    (hstop : v = .bool false ∨ (k : ℤ) = (resolveOptions opts).maxRetries) :
    (retryMini task opts rng).1
        = reachTrace (resolveOptions opts) rng k ++ [REvent.taskCall k, .shouldRetryCall k]
      ∧ taskCalls (retryMini task opts rng).1 = List.range (k + 1)
      ∧ onRetryCalls (retryMini task opts rng).1 = List.range k
      ∧ (retryMini task opts rng).2 = Outcome.thrown (some ek) := by
  have hfuel : loopFuel (resolveOptions opts).maxRetries - k
      = (loopFuel (resolveOptions opts).maxRetries - (k + 1)) + 1 := by
    unfold loopFuel; omega
  have hstop' : (v.isNullish = false ∧ v.truthy = false)
      ∨ (k : ℤ) = (resolveOptions opts).maxRetries := by
    rcases hstop with rfl | hm
    · exact Or.inl ⟨rfl, rfl⟩
    · exact Or.inr hm
  have hrun : retryMini task opts rng
      = (reachTrace (resolveOptions opts) rng k ++ [REvent.taskCall k, .shouldRetryCall k],
         Outcome.thrown (some ek)) := by
    simp only [retryMini]
    rw [retryLoop_reach (resolveOptions opts) task rng err k hB hk, hfuel,
      retryLoop_break_step (resolveOptions opts) task rng k (lastAt err k) _ ek v hk
        hfk hv hstop']
  refine ⟨by rw [hrun], ?_, ?_, by rw [hrun]⟩
  · rw [hrun]
    dsimp only
    rw [taskCalls_append, taskCalls_reachTrace]
    simp [taskCalls, evTask, List.filterMap_cons, List.range_succ]
  · rw [hrun]
    dsimp only
    rw [onRetryCalls_append, onRetryCalls_reachTrace]
    simp [onRetryCalls, evOnRetry, List.filterMap_cons]

theorem execute_stop_on_veto_or_final_spot :
    taskCalls (retryMini failTask7 optsVeto rng0).1 = List.range 2
      ∧ (retryMini failTask7 optsVeto rng0).2 = Outcome.thrown (some 7) := by
  have T := execute_stop_on_veto_or_final optsVeto failTask7 rng0 (fun _ => 7) 1 7
    (.bool false) (by decide)
    (fun j hj => by interval_cases j; exact ⟨rfl, rfl, rfl⟩) rfl rfl (Or.inl rfl)
  exact ⟨T.2.1, T.2.2.2⟩

/-- C9: an exception thrown by `shouldRetry` (first conjunct) or by
`onRetry` (second conjunct) at a reached failing attempt is not caught:
the run ends at that point with the hook's error as the outcome, the
caught `lastError` is discarded, and no further attempts happen. -/
theorem execute_hook_throw_propagates {ε α : Type} (opts : RetryOptions ε)
    (task : ℕ → Except ε α) (rng : ℕ → ℚ) (err : ℕ → ε) (k : ℕ) (ek : ε)
    (hk : (k : ℤ) ≤ (resolveOptions opts).maxRetries)
    (hB : ∀ j, j < k → task j = .error (err j)
      ∧ (resolveOptions opts).shouldRetry (err j) j = .ok (.bool true)
      ∧ (resolveOptions opts).onRetry (err j) j = .ok ())
    (hfk : task k = .error ek) :
    (∀ h, (resolveOptions opts).shouldRetry ek k = .error h →
        retryMini task opts rng
          = (reachTrace (resolveOptions opts) rng k
              ++ [REvent.taskCall k, .shouldRetryCall k],
             Outcome.hookThrow h))
    ∧ (∀ v h, (resolveOptions opts).shouldRetry ek k = .ok v →
        (v.isNullish = true ∨ v.truthy = true) →
        (k : ℤ) ≠ (resolveOptions opts).maxRetries →
        (resolveOptions opts).onRetry ek k = .error h →
        retryMini task opts rng
          = (reachTrace (resolveOptions opts) rng k
              ++ [REvent.taskCall k, .shouldRetryCall k, .onRetryCall k],
             Outcome.hookThrow h)) := by
  have hfuel : loopFuel (resolveOptions opts).maxRetries - k
      = (loopFuel (resolveOptions opts).maxRetries - (k + 1)) + 1 := by
    unfold loopFuel; omega
  constructor
  · intro h hs
    simp only [retryMini]
    rw [retryLoop_reach (resolveOptions opts) task rng err k hB hk, hfuel,
      retryLoop_shouldRetry_throw_step (resolveOptions opts) task rng k (lastAt err k)
        _ ek h hk hfk hs]
  · intro v h hs hcont hkm ho
    simp only [retryMini]
    rw [retryLoop_reach (resolveOptions opts) task rng err k hB hk, hfuel,
      retryLoop_onRetry_throw_step (resolveOptions opts) task rng k (lastAt err k)
        _ ek h v hk hfk hs hcont hkm ho]

theorem execute_hook_throw_propagates_spot :
    retryMini failTask7 optsThrow9 rng0
      = ([REvent.taskCall 0, REvent.shouldRetryCall 0], Outcome.hookThrow 9) := by
  have T := execute_hook_throw_propagates optsThrow9 failTask7 rng0 (fun _ => 7) 0 7
    (by decide) (fun j hj => absurd hj (Nat.not_lt_zero j)) rfl
  simpa [reachTrace] using T.1 9 rfl

/-- C6 (amended): at a reached failing attempt before the final one, a
nullish (`undefined`/`null`, via `?? true`) or truthy `shouldRetry` result
is treated as "continue" — `onRetry` runs and the next attempt starts —
while any non-nullish falsy result (`false`, `0`, `""`, ...) stops the
loop at once and throws the caught error.  When `shouldRetry` is unset
its default always returns `true`. -/
theorem shouldRetry_result_semantics {ε α : Type} (opts : RetryOptions ε)
    (task : ℕ → Except ε α) (rng : ℕ → ℚ) (err : ℕ → ε) (k : ℕ) (ek : ε) (v : JSValue)
    (hk2 : (k : ℤ) < (resolveOptions opts).maxRetries)
    (hB : ∀ j, j < k → task j = .error (err j)
      ∧ (resolveOptions opts).shouldRetry (err j) j = .ok (.bool true)
      ∧ (resolveOptions opts).onRetry (err j) j = .ok ())
    (hfk : task k = .error ek)
    (hv : (resolveOptions opts).shouldRetry ek k = .ok v)
    (ho : (resolveOptions opts).onRetry ek k = .ok ()) :
    ((v.isNullish = true ∨ v.truthy = true) →
        REvent.onRetryCall k ∈ (retryMini task opts rng).1
        ∧ REvent.taskCall (k + 1) ∈ (retryMini task opts rng).1)
    ∧ (v.isNullish = false → v.truthy = false →
        retryMini task opts rng
          = (reachTrace (resolveOptions opts) rng k
              ++ [REvent.taskCall k, .shouldRetryCall k],
             Outcome.thrown (some ek))) := by
  have hk : (k : ℤ) ≤ (resolveOptions opts).maxRetries := le_of_lt hk2
  have hfuel : loopFuel (resolveOptions opts).maxRetries - k
      = (loopFuel (resolveOptions opts).maxRetries - (k + 1)) + 1 := by
    unfold loopFuel; omega
  constructor
  · intro hcont
    have hkm : (k : ℤ) ≠ (resolveOptions opts).maxRetries := ne_of_lt hk2
    have hfuel2 : loopFuel (resolveOptions opts).maxRetries - (k + 1)
        = (loopFuel (resolveOptions opts).maxRetries - (k + 2)) + 1 := by
      unfold loopFuel; omega
    have hrun : (retryMini task opts rng).1
        = reachTrace (resolveOptions opts) rng k
          ++ (iterTrace (resolveOptions opts) rng k
            ++ (retryLoop (resolveOptions opts) task rng (k + 1) (some ek)
                (loopFuel (resolveOptions opts).maxRetries - (k + 1))).1) := by
      simp only [retryMini]
      rw [retryLoop_reach (resolveOptions opts) task rng err k hB hk, hfuel,
        retryLoop_continue_step (resolveOptions opts) task rng k (lastAt err k)
          _ ek v hk hfk hv hcont hkm ho]
    obtain ⟨rest2, hhead⟩ := retryLoop_head (resolveOptions opts) task rng (k + 1)
      (some ek) (loopFuel (resolveOptions opts).maxRetries - (k + 2))
      (by push_cast; omega)
    rw [← hfuel2] at hhead
    constructor
    · rw [hrun]
      simp [iterTrace]
    · rw [hrun, hhead]
      simp
  · intro hn ht
    simp only [retryMini]
    rw [retryLoop_reach (resolveOptions opts) task rng err k hB hk, hfuel,
      retryLoop_break_step (resolveOptions opts) task rng k (lastAt err k) _ ek v hk
        hfk hv (Or.inl ⟨hn, ht⟩)]

theorem shouldRetry_result_semantics_spot :
    REvent.onRetryCall 0 ∈ (retryMini failTask7 optsNullCont rng0).1
      ∧ REvent.taskCall 1 ∈ (retryMini failTask7 optsNullCont rng0).1 := by
  have T := shouldRetry_result_semantics optsNullCont failTask7 rng0 (fun _ => 7) 0 7
    JSValue.null (by decide) (fun j hj => absurd hj (Nat.not_lt_zero j)) rfl rfl rfl
  exact T.1 (Or.inl rfl)

/-- C6 counterexample: `shouldRetry` returning the number `0` — a value
other than explicit `false` — on attempt 0 of a two-attempt run stops the
loop at once: attempt 1 never happens, refuting the claim that only an
explicit `false` stops the loop early. -/
theorem shouldRetry_zero_stops_refuted :
    retryMini failTask7 optsNum0 rng0
        = ([REvent.taskCall 0, REvent.shouldRetryCall 0], Outcome.thrown (some 7))
      ∧ REvent.taskCall 1 ∉ (retryMini failTask7 optsNum0 rng0).1 := by
  constructor
  · rfl
  · intro hmem
    simp [retryMini, resolveOptions, retryLoop, loopFuel, optsNum0, failTask7,
      JSValue.isNullish, JSValue.truthy] at hmem

/-- C4 counterexample: with `backoffFactor = -2` (which is below 1) the
wait before attempt 3 is `100 * max(1, (-2)^2) = 400`, not the `100` that
`backoffFactor = 1` yields, refuting "any backoffFactor below 1 yields
the same wait as factor 1". -/
theorem backoff_subone_refuted :
    sleeps (retryMini failTask7 optsNeg2 rng0).1 = [100, 100, 400]
      ∧ sleeps (retryMini failTask7 optsFact1 rng0).1 = [100, 100, 100]
      ∧ ((400 : ℚ)) ≠ 100 := by
  refine ⟨?_, ?_, by norm_num⟩
  · norm_num [retryMini, resolveOptions, retryLoop, loopFuel, waitTime, rawWait, sleeps,
      evSleep, List.filterMap_cons, failTask7, rng0, optsNeg2, JSValue.isNullish,
      JSValue.truthy]
  · norm_num [retryMini, resolveOptions, retryLoop, loopFuel, waitTime, rawWait, sleeps,
      evSleep, List.filterMap_cons, failTask7, rng0, optsFact1, JSValue.isNullish,
      JSValue.truthy]

/-- C4 (amended): the raw wait of a retried attempt `k` is
`baseDelay * max(1, backoffFactor ^ k)` and is used unchanged when jitter
is 0; with `baseDelay 100, backoffFactor 2, jitter 0`, the scheduled waits
are exactly 100, 200 and 400 ms before attempts 1, 2 and 3; any
`backoffFactor` in `[-1, 1]` yields the same wait as factor 1; and for a
non-negative `baseDelay` the raw wait never shrinks below `baseDelay`. -/
theorem backoff_formula_amended :
    (∀ (ε : Type) (cfg : RConfig ε) (rng : ℕ → ℚ) (k : ℕ), cfg.jitter = 0 →
        waitTime cfg rng k = cfg.baseDelay * max 1 (cfg.backoffFactor ^ k))
    ∧ (∀ rng : ℕ → ℚ, sleeps (retryMini failTask7 opts100 rng).1 = [100, 200, 400])
    ∧ (∀ (ε : Type) (cfg : RConfig ε) (k : ℕ),
        -1 ≤ cfg.backoffFactor → cfg.backoffFactor ≤ 1 → rawWait cfg k = cfg.baseDelay)
    ∧ (∀ (ε : Type) (cfg : RConfig ε) (k : ℕ), 0 ≤ cfg.baseDelay →
        cfg.baseDelay ≤ rawWait cfg k) := by
  refine ⟨?_, ?_, ?_, ?_⟩
  · intro ε cfg rng k hj
    simp [waitTime, rawWait, hj]
  · intro rng
    norm_num [retryMini, resolveOptions, retryLoop, loopFuel, waitTime, rawWait, sleeps,
      evSleep, List.filterMap_cons, failTask7, opts100, JSValue.isNullish,
      JSValue.truthy]
  · intro ε cfg k h1 h2
    have hpow : cfg.backoffFactor ^ k ≤ 1 :=
      calc cfg.backoffFactor ^ k ≤ |cfg.backoffFactor ^ k| := le_abs_self _
        _ = |cfg.backoffFactor| ^ k := abs_pow _ _
        _ ≤ 1 := pow_le_one₀ (abs_nonneg _) (abs_le.mpr ⟨h1, h2⟩)
    rw [rawWait, max_eq_left hpow, mul_one]
  · intro ε cfg k h
    exact le_mul_of_one_le_right h (le_max_left 1 _)

theorem backoff_formula_amended_spot :
    rawWait (resolveOptions optsNegOne) 5 = (resolveOptions optsNegOne).baseDelay :=
  backoff_formula_amended.2.2.1 ℕ (resolveOptions optsNegOne) 5 (by decide) (by decide)

/-- C5: whenever the run fails through the trailing `throw lastError` with
an actual error value, that value is exactly the error of the most recent
task invocation — never a synthetic "retries exhausted" error. -/
theorem execute_failure_is_last_error {ε α : Type} (opts : RetryOptions ε)
    (task : ℕ → Except ε α) (rng : ℕ → ℚ) (e : ε)
    (h : (retryMini task opts rng).2 = Outcome.thrown (some e)) :
    ∃ j, (taskCalls (retryMini task opts rng).1).getLast? = some j
      ∧ task j = .error e := by
  have H := retryLoop_thrown_last (resolveOptions opts) task rng
    (loopFuel (resolveOptions opts).maxRetries) 0 none (some e)
    (by simpa [retryMini] using h)
  rcases H with ⟨_, habs⟩ | ⟨j, e', hlast, herr, hee⟩
  · exact absurd habs (by simp)
  · obtain rfl : e' = e := by simpa using hee.symm
    exact ⟨j, by simpa [retryMini] using hlast, herr⟩

theorem execute_failure_is_last_error_spot :
    ∃ j, (taskCalls (retryMini failTask7 optsM0 rng0).1).getLast? = some j
      ∧ failTask7 j = Except.error 7 :=
  execute_failure_is_last_error optsM0 failTask7 rng0 7 rfl

/-- C8 counterexample: with the degenerate `jitter = 2` and the random
source at its minimum, the computed wait time is `-100`, refuting "the
computed wait time is never negative". -/
theorem computed_wait_negative_refuted :
    waitTime (resolveOptions optsJ2) rng0 0 = -100 ∧ ¬ (0 : ℚ) ≤ -100 := by
  constructor
  · norm_num [waitTime, rawWait, resolveOptions, optsJ2, rng0]
  · norm_num

/-- C8 (amended): for every configuration — however degenerate — and every
random source, a non-positive computed wait results in no pause: every
sleep the orchestrator actually schedules has a strictly positive
duration, and the run always completes with a trace and an outcome (the
computed, pre-check wait value itself may be negative). -/
theorem scheduled_waits_positive {ε α : Type} (opts : RetryOptions ε)
    (task : ℕ → Except ε α) (rng : ℕ → ℚ) (t : ℚ)
    (h : REvent.sleep t ∈ (retryMini task opts rng).1) : 0 < t :=
  retryLoop_sleep_pos (resolveOptions opts) task rng
    (loopFuel (resolveOptions opts).maxRetries) 0 none t (by simpa [retryMini] using h)

theorem scheduled_waits_positive_spot :
    REvent.sleep 100 ∈ (retryMini failTask7 opts100 rng0).1 ∧ (0 : ℚ) < 100 := by
  have hmem : REvent.sleep 100 ∈ (retryMini failTask7 opts100 rng0).1 := by
    norm_num [retryMini, resolveOptions, retryLoop, loopFuel, waitTime, rawWait,
      failTask7, rng0, opts100, JSValue.isNullish, JSValue.truthy]
  exact ⟨hmem, scheduled_waits_positive opts100 failTask7 rng0 100 hmem⟩

end RetryMini
